import Mathlib

/-!
Formal model of the GENESYS programmable-power-supply protocol client
(files genesys/protocol.py and genesys/client.py): outbound frame
encoding, response decoding into typed values, and the TCP transport
exchange, together with theorems about their behaviour.

Bytes are modelled as lists of naturals (one per byte); Python floats
are modelled as exact rationals, which agrees with Python on every
decimal literal the protocol exchanges.  Python numeric conversion
(the builtin float and int constructors) is modelled on its decimal
core: optional surrounding ASCII whitespace, optional sign, digits
with at most one point and an optional exponent for float, and for
int in base 16 an optional 0x prefix; the exotic literal forms
(underscore digit grouping, inf, nan) never occur on this wire and
are left out.
-/

/-- Raw wire bytes, one natural number per byte. -/
abbrev Bytes := List Nat

/-- The frame delimiter byte: carriage return, 0x0D. -/
def CRbyte : Nat := 13

/-- The exceptions the decoding paths of the client can raise:
GenesysError carrying the raw response, and the builtin errors that
escape undecorated (ValueError from a failed numeric conversion,
IndexError from a missing field, UnicodeDecodeError from a non-ASCII
byte). -/
inductive PyErr where
  | genesysError (raw : Bytes)
  | valueError
  | indexError
  | unicodeDecodeError
  deriving DecidableEq, Repr

/-- ASCII encoding of a string, as in Python str.encode("ascii"); the
protocol only ever encodes ASCII text. -/
def asciiEncode (s : String) : Bytes := s.data.map Char.toNat

/-- Python bytes.decode("ascii"): fails on any byte outside the ASCII
range. -/
def asciiDecode (bs : Bytes) : Except PyErr String :=
  if bs.all (fun b => b < 128) then .ok (String.mk (bs.map Char.ofNat))
  else .error .unicodeDecodeError

/-- Protocol._make_packet: command, optional rendered value preceded by
a single space, then the delimiter, ASCII-encoded.  The value argument
is the value's default string rendering (Python str). -/
def make_packet (command : String) (value : Option String) : Bytes :=
  asciiEncode (command ++ (match value with | none => "" | some v => " " ++ v) ++ "\r")

/-- Python str.upper on ASCII text, character by character. -/
def pyUpper (s : String) : String := String.mk (s.data.map Char.toUpper)

/-- The frame built by Protocol._send before the bus exchange: the
command token is upper-cased first. -/
def send_frame (command : String) (value : Option String) : Bytes :=
  make_packet (pyUpper command) value

/-- The expected acknowledgement response, bytes of "OK" plus the
delimiter. -/
def OKframe : Bytes := asciiEncode "OK\r"

/-- Protocol._set, response side: True exactly on the OK frame, and a
GenesysError carrying the raw bytes on anything else. -/
def set_decode (raw : Bytes) : Except PyErr Bool :=
  if raw = OKframe then .ok true else .error (.genesysError raw)

/-- Characters Python treats as whitespace when trimming a numeric
literal. -/
def isPySpace (c : Char) : Bool :=
  c = ' ' || c = '\t' || c = '\n' || c = '\r' || c.toNat = 11 || c.toNat = 12

/-- Trim surrounding whitespace, trailing end first, as the Python
numeric constructors do before parsing. -/
def stripChars (cs : List Char) : List Char :=
  ((cs.reverse.dropWhile isPySpace).reverse).dropWhile isPySpace

/-- Decimal digit test. -/
def isDigitChar (c : Char) : Bool := '0' ≤ c && c ≤ '9'

/-- Value of a run of decimal digits. -/
def digitsVal (ds : List Char) : Nat :=
  ds.foldl (fun a c => 10 * a + (c.toNat - 48)) 0

/-- Exponent digits with nothing after them. -/
def parseExpDigits (cs : List Char) : Option Int :=
  if cs ≠ [] && cs.all isDigitChar then some ((digitsVal cs : Int)) else none

/-- Optional exponent suffix of a float literal: empty, or e/E with an
optional sign and digits filling the rest of the text. -/
def parseExpPart : List Char → Option Int
  | [] => some 0
  | c :: rest =>
      if c = 'e' || c = 'E' then
        match rest with
        | '+' :: r => parseExpDigits r
        | '-' :: r => (parseExpDigits r).map Neg.neg
        | r => parseExpDigits r
      else none

/-- Scale a rational by a signed power of ten. -/
def applyExp (q : ℚ) (e : Int) : ℚ :=
  if 0 ≤ e then q * (10 : ℚ) ^ e.toNat else q / (10 : ℚ) ^ (-e).toNat

/-- Unsigned core of the Python float constructor: digits, at most one
point, optional exponent. -/
def pyFloatCore (cs : List Char) : Option ℚ :=
  let ip := cs.takeWhile isDigitChar
  let r1 := cs.dropWhile isDigitChar
  match r1 with
  | '.' :: r2 =>
      let fp := r2.takeWhile isDigitChar
      let r3 := r2.dropWhile isDigitChar
      if ip = [] && fp = [] then none
      else
        match parseExpPart r3 with
        | some e =>
            some (applyExp ((digitsVal ip : ℚ) + (digitsVal fp : ℚ) / (10 : ℚ) ^ fp.length) e)
        | none => none
  | _ =>
      if ip = [] then none
      else
        match parseExpPart r1 with
        | some e => some (applyExp ((digitsVal ip : ℚ)) e)
        | none => none

/-- The Python float constructor on text: trim whitespace, optional
sign, decimal core. -/
def pyFloatChars (cs : List Char) : Option ℚ :=
  match stripChars cs with
  | '+' :: r => pyFloatCore r
  | '-' :: r => (pyFloatCore r).map Neg.neg
  | r => pyFloatCore r

/-- Unsigned core of the Python int constructor in base 10: a nonempty
all-digit run. -/
def pyIntCore (cs : List Char) : Option Int :=
  if cs ≠ [] && cs.all isDigitChar then some ((digitsVal cs : Int)) else none

/-- The Python int constructor on text, base 10. -/
def pyIntChars (cs : List Char) : Option Int :=
  match stripChars cs with
  | '+' :: r => pyIntCore r
  | '-' :: r => (pyIntCore r).map Neg.neg
  | r => pyIntCore r

/-- Hexadecimal digit value. -/
def hexDigit (c : Char) : Option Nat :=
  if '0' ≤ c && c ≤ '9' then some (c.toNat - 48)
  else if 'a' ≤ c && c ≤ 'f' then some (c.toNat - 87)
  else if 'A' ≤ c && c ≤ 'F' then some (c.toNat - 55)
  else none

/-- Value of a run of hexadecimal digits; none on a non-hex character. -/
def hexDigitsVal : List Char → Option Nat
  | [] => some 0
  | c :: rest => do
      let d ← hexDigit c
      let r ← hexDigitsVal rest
      pure (d * 16 ^ rest.length + r)

/-- Unsigned core of the Python int constructor in base 16: optional 0x
or 0X prefix, then a nonempty hex-digit run. -/
def pyHexCore (cs : List Char) : Option Int :=
  let body := match cs with
    | '0' :: x :: r => if x = 'x' || x = 'X' then r else cs
    | _ => cs
  if body = [] then none
  else (hexDigitsVal body).map (fun n => ((n : Int)))

/-- The Python int constructor on text with base 16. -/
def pyHexChars (cs : List Char) : Option Int :=
  match stripChars cs with
  | '+' :: r => pyHexCore r
  | '-' :: r => (pyHexCore r).map Neg.neg
  | r => pyHexCore r

/-- Bytes viewed as characters when all are ASCII, as the numeric
constructors do for a bytes argument. -/
def bytesToChars (bs : Bytes) : Option (List Char) :=
  if bs.all (fun b => b < 128) then some (bs.map Char.ofNat) else none

/-- Python float on a bytes argument. -/
def pyFloatBytes (bs : Bytes) : Option ℚ := (bytesToChars bs).bind pyFloatChars

/-- Python int on a bytes argument, base 10. -/
def pyIntBytes (bs : Bytes) : Option Int := (bytesToChars bs).bind pyIntChars

/-- Protocol._get_float, response side: the raw bytes are fed to the
float constructor; a ValueError is caught and replaced by a
GenesysError carrying the raw bytes. -/
def get_float_decode (raw : Bytes) : Except PyErr ℚ :=
  match pyFloatBytes raw with
  | some q => .ok q
  | none => .error (.genesysError raw)

/-- Protocol._get_int, response side: the raw bytes are fed to the int
constructor; a ValueError is caught and replaced by a GenesysError
carrying the raw bytes. -/
def get_int_decode (raw : Bytes) : Except PyErr Int :=
  match pyIntBytes raw with
  | some n => .ok n
  | none => .error (.genesysError raw)

/-- Protocol._get_string, response side: when a nonempty pattern set is
supplied and the raw bytes (delimiter included) are not a member, a
GenesysError carrying the raw bytes; otherwise the raw bytes decoded
as ASCII text, delimiter and all. -/
def get_string_decode (raw : Bytes) (pattern : Option (List Bytes)) : Except PyErr String :=
  match pattern with
  | some ps => if ps ≠ [] ∧ raw ∉ ps then .error (.genesysError raw) else asciiDecode raw
  | none => asciiDecode raw

/-- The allowed responses of the remote-mode read RMT?. -/
def remoteModeAllowed : List Bytes :=
  [asciiEncode "LOC\r", asciiEncode "REM\r", asciiEncode "LLO\r"]

/-- Protocol.get_remote_mode, response side. -/
def get_remote_mode_decode (raw : Bytes) : Except PyErr String :=
  get_string_decode raw (some remoteModeAllowed)

/-- The structured status record returned by get_power_status. -/
structure STATUS where
  MV : ℚ
  PV : ℚ
  MC : ℚ
  PC : ℚ
  SR : Int
  FR : Int
  deriving DecidableEq, Repr

/-- Python str.lower followed by removal of every lowercase letter,
parenthesis and space, as the regular-expression substitution in
get_power_status performs on the decoded response. -/
def stripStatus (s : String) : String :=
  String.mk ((s.data.map Char.toLower).filter
    (fun c => !(('a' ≤ c && c ≤ 'z') || c = '(' || c = ')' || c = ' ')))

/-- Python str.split on a comma. -/
def splitComma : List Char → List (List Char)
  | [] => [[]]
  | c :: rest =>
      match splitComma rest with
      | [] => [[]]
      | f :: fs => if c = ',' then [] :: f :: fs else (c :: f) :: fs

/-- Lift an optional value into the Except monad with the given error
for the missing case. -/
def liftE (e : PyErr) : Option α → Except PyErr α
  | some a => .ok a
  | none => .error e

/-- Protocol.get_power_status, response side: decode the raw bytes as
text, strip lowercase letters, parentheses and spaces from the
lower-cased text, split on commas, and convert the six positional
fields (floats, then two base-16 integers).  Indexing and conversion
raise the builtin IndexError and ValueError; nothing converts them to
a GenesysError. -/
def get_power_status_decode (raw : Bytes) : Except PyErr STATUS := do
  let s ← asciiDecode raw
  let fields := splitComma (stripStatus s).data
  let c0 ← liftE .indexError (fields.get? 0)
  let mv ← liftE .valueError (pyFloatChars c0)
  let c1 ← liftE .indexError (fields.get? 1)
  let pv ← liftE .valueError (pyFloatChars c1)
  let c2 ← liftE .indexError (fields.get? 2)
  let mc ← liftE .valueError (pyFloatChars c2)
  let c3 ← liftE .indexError (fields.get? 3)
  let pc ← liftE .valueError (pyFloatChars c3)
  let c4 ← liftE .indexError (fields.get? 4)
  let sr ← liftE .valueError (pyHexChars c4)
  let c5 ← liftE .indexError (fields.get? 5)
  let fr ← liftE .valueError (pyHexChars c5)
  pure ⟨mv, pv, mc, pc, sr, fr⟩

/-- GenesysTcpClient._tcp_read as a function of the bytes available on
the socket within the deadline: read one byte at a time, stop after
the stop byte, on an empty read, or when nothing more is available;
returns the bytes read and the bytes left unread. -/
def tcpReadSt (stop : Option Nat) : Bytes → Bytes × Bytes
  | [] => ([], [])
  | b :: rest =>
      if some b = stop then ([b], rest)
      else (b :: (tcpReadSt stop rest).1, (tcpReadSt stop rest).2)

/-- GenesysTcpClient._bus_exchange: drain whatever is still buffered
with a zero-wait read (no stop byte), send, then read the arriving
response up to the delimiter.  The buffered leftovers and the fresh
response bytes live in the same socket buffer, so the final read runs
over what the drain left followed by the response. -/
def tcp_bus_exchange (buffered : Bytes) (response : Bytes) : Bytes × Bytes :=
  tcpReadSt (some CRbyte) ((tcpReadSt none buffered).2 ++ response)

/-- Externally visible effects of a protocol operation: one bus
exchange of a frame, or a sleep of a duration in seconds. -/
inductive Effect where
  | busExch (packet : Bytes)
  | sleepSec (t : ℚ)
  deriving DecidableEq, Repr

/-- The ADR frame transmitted by select_address for a given address
argument (Python renders the int with str). -/
def adr_frame (address : Int) : Bytes :=
  send_frame "ADR" (some (toString address))

/-- Protocol.select_address as a function of the device's raw response:
_set sends the ADR frame and checks for OK — on any other response the
GenesysError propagates at once, so the 0.1 second sleep that follows
runs only on an acknowledged exchange. -/
def select_address (address : Int) (resp : Bytes) : Except PyErr Bool × List Effect :=
  match set_decode resp with
  | .ok b => (.ok b, [.busExch (adr_frame address), .sleepSec (1 / 10)])
  | .error e => (.error e, [.busExch (adr_frame address)])

/-- The sleep durations occurring in an effect trace, in order. -/
def tracePauses (tr : List Effect) : List ℚ :=
  tr.filterMap (fun e => match e with | .sleepSec t => some t | _ => none)

/-- True exactly on a GenesysError result. -/
def isGenErr : Except PyErr α → Bool
  | .error (.genesysError _) => true
  | _ => false

/-- Split a byte list on every occurrence of a separator byte, as
Python bytes.split would. -/
def splitOnByte (b : Nat) : Bytes → List Bytes
  | [] => [[]]
  | x :: rest =>
      match splitOnByte b rest with
      | [] => [[]]
      | f :: fs => if x = b then [] :: f :: fs else (x :: f) :: fs

deriving instance DecidableEq for Except

/-! Theorems. -/

/-- Status decode, counterexample: on the raw status text of the claim
(fields separated by spaces, no commas), get_power_status does not
yield the claimed record — the stripped text contains no comma, the
single resulting field fails its float conversion, and the ValueError
escapes. -/
theorem status_spec_example_not_parsed :
    get_power_status_decode
        (asciiEncode "mv 10.00 pv 10.00 mc 1.00 pc 1.00 sr(1f) fr(0a)") =
      .error .valueError ∧
    get_power_status_decode
        (asciiEncode "mv 10.00 pv 10.00 mc 1.00 pc 1.00 sr(1f) fr(0a)") ≠
      .ok ⟨10, 10, 1, 1, 31, 10⟩ :=
  ⟨by decide, by decide⟩

unseal Rat.add Rat.mul Rat.inv in
/-- Status decode on the comma-separated form of the example: the
floats come out as claimed, but the substitution strips the hex letter
digits a-f along with the field labels (everything is lower-cased
first), so the register fields sr(1f) and fr(0a) are reduced to the
digit strings 1 and 0 before the base-16 conversion. -/
theorem status_decode_comma_example :
    get_power_status_decode
        (asciiEncode "mv 10.00,pv 10.00,mc 1.00,pc 1.00,sr(1f),fr(0a)") =
      .ok ⟨10, 10, 1, 1, 1, 0⟩ := by
  decide

/-- A bind is no GenesysError when neither side ever is. -/
theorem isGenErr_bind (m : Except PyErr α) (k : α → Except PyErr β)
    (hm : isGenErr m = false) (hk : ∀ a, isGenErr (k a) = false) :
    isGenErr (m >>= k) = false := by
  cases m with
  | error e =>
      simp only [bind, Except.bind]
      cases e with
      | genesysError r => simp [isGenErr] at hm
      | valueError => rfl
      | indexError => rfl
      | unicodeDecodeError => rfl
  | ok a =>
      simp only [bind, Except.bind]
      exact hk a

/-- asciiDecode never produces a GenesysError. -/
theorem isGenErr_asciiDecode (bs : Bytes) : isGenErr (asciiDecode bs) = false := by
  unfold asciiDecode
  split <;> rfl

/-- Lifting a missing index never produces a GenesysError. -/
theorem isGenErr_liftE_idx (o : Option α) : isGenErr (liftE .indexError o) = false := by
  cases o <;> rfl

/-- Lifting a failed conversion never produces a GenesysError. -/
theorem isGenErr_liftE_val (o : Option α) : isGenErr (liftE .valueError o) = false := by
  cases o <;> rfl

/-- Status decode error taxonomy: whatever the raw response,
get_power_status never raises a GenesysError — a short field list or a
failed conversion surfaces as the builtin IndexError or ValueError
(and a non-ASCII byte as UnicodeDecodeError), unwrapped. -/
theorem status_decode_errors_never_genesys (raw : Bytes) :
    isGenErr (get_power_status_decode raw) = false := by
  unfold get_power_status_decode
  apply isGenErr_bind _ _ (isGenErr_asciiDecode raw)
  intro s
  apply isGenErr_bind _ _ (isGenErr_liftE_idx _)
  intro c0
  apply isGenErr_bind _ _ (isGenErr_liftE_val _)
  intro mv
  apply isGenErr_bind _ _ (isGenErr_liftE_idx _)
  intro c1
  apply isGenErr_bind _ _ (isGenErr_liftE_val _)
  intro pv
  apply isGenErr_bind _ _ (isGenErr_liftE_idx _)
  intro c2
  apply isGenErr_bind _ _ (isGenErr_liftE_val _)
  intro mc
  apply isGenErr_bind _ _ (isGenErr_liftE_idx _)
  intro c3
  apply isGenErr_bind _ _ (isGenErr_liftE_val _)
  intro pc
  apply isGenErr_bind _ _ (isGenErr_liftE_idx _)
  intro c4
  apply isGenErr_bind _ _ (isGenErr_liftE_val _)
  intro sr
  apply isGenErr_bind _ _ (isGenErr_liftE_idx _)
  intro c5
  apply isGenErr_bind _ _ (isGenErr_liftE_val _)
  intro fr
  rfl

/-- Status decode, counterexample: the malformed (empty) status payload
raises the bare ValueError of the failed float conversion, not a
GenesysError carrying the raw response bytes. -/
theorem status_parse_failure_not_genesys :
    get_power_status_decode (asciiEncode "\r") = .error .valueError ∧
    get_power_status_decode (asciiEncode "\r") ≠
      .error (.genesysError (asciiEncode "\r")) :=
  ⟨by decide, by decide⟩

/-- Acknowledgement decode: _set succeeds with True exactly when the
raw response equals the bytes of OK plus the delimiter, and on every
other byte sequence raises a GenesysError carrying the raw bytes. -/
theorem ack_decode_iff_ok_frame (raw : Bytes) :
    (set_decode raw = .ok true ↔ raw = OKframe) ∧
    (raw ≠ OKframe → set_decode raw = .error (.genesysError raw)) := by
  unfold set_decode
  refine ⟨⟨fun h => ?_, fun h => by rw [if_pos h]⟩, fun h => by rw [if_neg h]⟩
  by_contra hne
  rw [if_neg hne] at h
  exact Except.noConfusion h

/-- Witness: the empty response is not the OK frame and decodes to a
GenesysError carrying the empty raw bytes. -/
theorem ack_decode_iff_ok_frame_witness :
    ([] : Bytes) ≠ OKframe ∧ set_decode [] = .error (.genesysError []) :=
  ⟨by decide, (ack_decode_iff_ok_frame []).2 (by decide)⟩

/-- Enumerated decode, counterexample: a response in the allowed set is
returned as decoded text with the delimiter still attached — nothing
strips the trailing carriage return before the text is returned. -/
theorem remote_mode_keeps_delimiter :
    get_remote_mode_decode (asciiEncode "LOC\r") = .ok "LOC\r" ∧
    ("LOC\r" : String) ≠ "LOC" :=
  ⟨by decide, by decide⟩

/-- Enumerated decode: with a nonempty allowed set the raw response is
rejected with a GenesysError carrying the raw bytes exactly when it is
not a member, and an allowed response is returned as the ASCII
decoding of the full raw bytes, delimiter included; get_remote_mode is
this decode at the RMT? allowed set. -/
theorem remote_mode_decode_membership (raw : Bytes) (ps : List Bytes) :
    (ps ≠ [] → raw ∉ ps →
      get_string_decode raw (some ps) = .error (.genesysError raw)) ∧
    (raw ∈ ps → get_string_decode raw (some ps) = asciiDecode raw) ∧
    get_remote_mode_decode raw = get_string_decode raw (some remoteModeAllowed) := by
  refine ⟨fun hne hmem => ?_, fun hmem => ?_, rfl⟩
  · show (if ps ≠ [] ∧ raw ∉ ps then (.error (.genesysError raw) : Except PyErr String)
        else asciiDecode raw) = .error (.genesysError raw)
    rw [if_pos ⟨hne, hmem⟩]
  · show (if ps ≠ [] ∧ raw ∉ ps then (.error (.genesysError raw) : Except PyErr String)
        else asciiDecode raw) = asciiDecode raw
    rw [if_neg (fun h => h.2 hmem)]

/-- Witness: the out-of-set response XXX is rejected with a
GenesysError, and the allowed response LOC comes back as text with the
delimiter still present. -/
theorem remote_mode_decode_membership_witness :
    get_remote_mode_decode (asciiEncode "XXX\r") =
      .error (.genesysError (asciiEncode "XXX\r")) ∧
    get_remote_mode_decode (asciiEncode "LOC\r") = .ok "LOC\r" := by
  constructor
  · rw [(remote_mode_decode_membership (asciiEncode "XXX\r") remoteModeAllowed).2.2]
    exact (remote_mode_decode_membership (asciiEncode "XXX\r") remoteModeAllowed).1
      (by decide) (by decide)
  · rw [(remote_mode_decode_membership (asciiEncode "LOC\r") remoteModeAllowed).2.2]
    rw [(remote_mode_decode_membership (asciiEncode "LOC\r") remoteModeAllowed).2.1
      (by decide)]
    decide

/-- Appending the delimiter character does not change what the
whitespace trim leaves. -/
theorem stripChars_append_cr (cs : List Char) :
    stripChars (cs ++ ['\r']) = stripChars cs := by
  unfold stripChars
  have h : (cs ++ ['\r']).reverse = '\r' :: cs.reverse := by simp
  rw [h, List.dropWhile_cons]
  norm_num [isPySpace]

/-- The float constructor ignores a trailing delimiter. -/
theorem pyFloatChars_append_cr (cs : List Char) :
    pyFloatChars (cs ++ ['\r']) = pyFloatChars cs := by
  unfold pyFloatChars
  rw [stripChars_append_cr]

/-- The int constructor ignores a trailing delimiter. -/
theorem pyIntChars_append_cr (cs : List Char) :
    pyIntChars (cs ++ ['\r']) = pyIntChars cs := by
  unfold pyIntChars
  rw [stripChars_append_cr]

/-- Viewing bytes as characters commutes with appending the delimiter
byte. -/
theorem bytesToChars_append_cr (bs : Bytes) :
    bytesToChars (bs ++ [CRbyte]) = (bytesToChars bs).map (fun cs => cs ++ ['\r']) := by
  unfold bytesToChars
  by_cases h : bs.all (fun b => b < 128)
  · have hall : (bs ++ [CRbyte]).all (fun b => b < 128) = true := by
      simp only [List.all_append, h, Bool.true_and]
      decide
    rw [if_pos hall, if_pos h]
    simp only [List.map_append, Option.map_some']
    have hcr : List.map Char.ofNat [CRbyte] = ['\r'] := by decide
    rw [hcr]
  · have hall : ¬((bs ++ [CRbyte]).all (fun b => b < 128) = true) := by
      simp only [List.all_append, Bool.and_eq_true]
      intro hc
      exact h hc.1
    rw [if_neg hall, if_neg h]
    rfl

/-- The float constructor on bytes ignores a trailing delimiter byte. -/
theorem pyFloatBytes_append_cr (bs : Bytes) :
    pyFloatBytes (bs ++ [CRbyte]) = pyFloatBytes bs := by
  unfold pyFloatBytes
  rw [bytesToChars_append_cr]
  cases bytesToChars bs with
  | none => rfl
  | some cs =>
      simp only [Option.map_some', Option.bind_some]
      exact pyFloatChars_append_cr cs

/-- The int constructor on bytes ignores a trailing delimiter byte. -/
theorem pyIntBytes_append_cr (bs : Bytes) :
    pyIntBytes (bs ++ [CRbyte]) = pyIntBytes bs := by
  unfold pyIntBytes
  rw [bytesToChars_append_cr]
  cases bytesToChars bs with
  | none => rfl
  | some cs =>
      simp only [Option.map_some', Option.bind_some]
      exact pyIntChars_append_cr cs

/-- Numeric decode: a raw response made of a payload plus the delimiter
parses exactly as the payload alone does (the numeric constructors
ignore the trailing delimiter), the parsed number is returned, and a
parse failure raises a GenesysError carrying the full raw bytes rather
than the parse exception. -/
theorem numeric_decode_parses_payload (payload : Bytes) :
    (∀ q : ℚ, pyFloatBytes payload = some q →
        get_float_decode (payload ++ [CRbyte]) = .ok q) ∧
    (pyFloatBytes payload = none →
        get_float_decode (payload ++ [CRbyte]) =
          .error (.genesysError (payload ++ [CRbyte]))) ∧
    (∀ n : Int, pyIntBytes payload = some n →
        get_int_decode (payload ++ [CRbyte]) = .ok n) ∧
    (pyIntBytes payload = none →
        get_int_decode (payload ++ [CRbyte]) =
          .error (.genesysError (payload ++ [CRbyte]))) := by
  refine ⟨fun q hq => ?_, fun hn => ?_, fun n hn2 => ?_, fun hn3 => ?_⟩
  · unfold get_float_decode
    rw [pyFloatBytes_append_cr, hq]
  · unfold get_float_decode
    rw [pyFloatBytes_append_cr, hn]
  · unfold get_int_decode
    rw [pyIntBytes_append_cr, hn2]
  · unfold get_int_decode
    rw [pyIntBytes_append_cr, hn3]

unseal Rat.add Rat.mul Rat.inv in
/-- Witness: a float payload and an int payload round-trip through
their decodes with the delimiter attached, and non-numeric payloads
come back as GenesysError carrying the raw bytes. -/
theorem numeric_decode_parses_payload_witness :
    get_float_decode (asciiEncode "10.5" ++ [CRbyte]) = .ok (21 / 2) ∧
    get_float_decode (asciiEncode "XX" ++ [CRbyte]) =
      .error (.genesysError (asciiEncode "XX" ++ [CRbyte])) ∧
    get_int_decode (asciiEncode "18" ++ [CRbyte]) = .ok 18 ∧
    get_int_decode (asciiEncode "5.5" ++ [CRbyte]) =
      .error (.genesysError (asciiEncode "5.5" ++ [CRbyte])) :=
  ⟨(numeric_decode_parses_payload (asciiEncode "10.5")).1 (21 / 2) (by decide),
   (numeric_decode_parses_payload (asciiEncode "XX")).2.1 (by decide),
   (numeric_decode_parses_payload (asciiEncode "18")).2.2.1 18 (by decide),
   (numeric_decode_parses_payload (asciiEncode "5.5")).2.2.2 (by decide)⟩

/-- Splitting never yields an empty field list. -/
theorem splitOnByte_ne_nil (b : Nat) (xs : Bytes) : splitOnByte b xs ≠ [] := by
  cases xs with
  | nil => simp [splitOnByte]
  | cons x rest =>
      simp only [splitOnByte]
      cases h : splitOnByte b rest with
      | nil => simp
      | cons f fs => by_cases hx : x = b <;> simp [hx]

/-- A list free of the separator splits into itself alone. -/
theorem splitOnByte_not_mem (b : Nat) (xs : Bytes) (h : b ∉ xs) :
    splitOnByte b xs = [xs] := by
  induction xs with
  | nil => rfl
  | cons x rest ih =>
      have hx : ¬(x = b) := fun he => h (by rw [he]; exact List.mem_cons_self b rest)
      have hrest : b ∉ rest := fun hm => h (List.mem_cons_of_mem x hm)
      simp only [splitOnByte, ih hrest, if_neg hx]

/-- Splitting a list at its first separator occurrence detaches the
separator-free head. -/
theorem splitOnByte_append (b : Nat) (xs ys : Bytes) (h : b ∉ xs) :
    splitOnByte b (xs ++ b :: ys) = xs :: splitOnByte b ys := by
  induction xs with
  | nil =>
      cases hys : splitOnByte b ys with
      | nil => exact absurd hys (splitOnByte_ne_nil b ys)
      | cons f fs =>
          simp [List.nil_append, splitOnByte, hys]
  | cons x rest ih =>
      have hx : ¬(x = b) := fun he => h (by rw [he]; exact List.mem_cons_self b _)
      have hrest : b ∉ rest := fun hm => h (List.mem_cons_of_mem x hm)
      have hih : splitOnByte b (rest ++ b :: ys) = rest :: splitOnByte b ys := ih hrest
      simp only [List.cons_append, splitOnByte, List.append_eq, hih, if_neg hx]

/-- Frame encoding round trip: for an already upper-case token the
encoded frame is the token, one space, the value's rendering and the
delimiter, ASCII-encoded; splitting that frame on the delimiter byte
and then on the separating space byte recovers the token and the value
exactly (valid tokens and numeric renderings contain neither byte). -/
theorem frame_encode_roundtrip (token value : String)
    (hup : pyUpper token = token)
    (ht32 : (32 : Nat) ∉ asciiEncode token) (ht13 : (13 : Nat) ∉ asciiEncode token)
    (hv32 : (32 : Nat) ∉ asciiEncode value) (hv13 : (13 : Nat) ∉ asciiEncode value) :
    send_frame token (some value) = asciiEncode (token ++ " " ++ value ++ "\r") ∧
    splitOnByte 32 ((splitOnByte 13 (send_frame token (some value))).headD []) =
      [asciiEncode token, asciiEncode value] := by
  have hframe : send_frame token (some value) =
      asciiEncode token ++ (32 :: (asciiEncode value ++ [13])) := by
    unfold send_frame make_packet asciiEncode
    rw [hup]
    simp [String.data_append]
  constructor
  · rw [hframe]
    unfold asciiEncode
    simp [String.data_append]
  · rw [hframe]
    have h13 : (13 : Nat) ∉ asciiEncode token ++ 32 :: asciiEncode value := by
      intro hm
      rcases List.mem_append.1 hm with hm | hm
      · exact ht13 hm
      · rcases List.mem_cons.1 hm with hm | hm
        · exact absurd hm (by decide)
        · exact hv13 hm
    have e1 : asciiEncode token ++ (32 :: (asciiEncode value ++ [13])) =
        (asciiEncode token ++ 32 :: asciiEncode value) ++ 13 :: [] := by simp
    rw [e1, splitOnByte_append 13 _ [] h13]
    show splitOnByte 32 (asciiEncode token ++ 32 :: asciiEncode value) = _
    rw [splitOnByte_append 32 _ _ ht32, splitOnByte_not_mem 32 _ hv32]

/-- Witness: the frame for token PV and value 12.5 encodes and re-splits
back to the token and the value. -/
theorem frame_encode_roundtrip_witness :
    send_frame "PV" (some "12.5") = asciiEncode ("PV" ++ " " ++ "12.5" ++ "\r") ∧
    splitOnByte 32 ((splitOnByte 13 (send_frame "PV" (some "12.5"))).headD []) =
      [asciiEncode "PV", asciiEncode "12.5"] :=
  frame_encode_roundtrip "PV" "12.5" (by decide) (by decide) (by decide)
    (by decide) (by decide)

/-- A zero-wait read with no stop byte drains everything available. -/
theorem tcpReadSt_none (l : Bytes) : tcpReadSt none l = (l, []) := by
  induction l with
  | nil => rfl
  | cons b rest ih =>
      simp only [tcpReadSt]
      rw [if_neg (by simp), ih]

/-- A read returns what it consumed; together with what it leaves this
is exactly what was available. -/
theorem tcpReadSt_split (stop : Option Nat) (l : Bytes) :
    (tcpReadSt stop l).1 ++ (tcpReadSt stop l).2 = l := by
  induction l with
  | nil => rfl
  | cons b rest ih =>
      simp only [tcpReadSt]
      by_cases hb : some b = stop
      · rw [if_pos hb]
        rfl
      · rw [if_neg hb]
        simp only [List.cons_append, ih]

/-- Back-to-back TCP exchanges: whatever the first exchange left
unread, the zero-wait drain before the write empties the buffer, so
the second exchange's result is read from the second response alone —
it is an initial segment of that response and coincides with the same
exchange on a fresh connection. -/
theorem tcp_exchange_no_stale_bytes (buffered r1 r2 : Bytes) :
    (∃ t, r2 = (tcp_bus_exchange (tcp_bus_exchange buffered r1).2 r2).1 ++ t) ∧
    (tcp_bus_exchange (tcp_bus_exchange buffered r1).2 r2).1 =
      (tcp_bus_exchange [] r2).1 := by
  unfold tcp_bus_exchange
  simp only [tcpReadSt_none, List.nil_append]
  exact ⟨⟨(tcpReadSt (some CRbyte) r2).2, (tcpReadSt_split _ r2).symm⟩, trivial⟩

/-- Settle delay, counterexample: when the device answers anything but
OK to the ADR frame, the GenesysError propagates before the sleep
call — the exchange happened, yet the trace holds no pause at all. -/
theorem select_address_error_skips_delay :
    tracePauses (select_address 0 (asciiEncode "E\r")).2 = [] ∧
    (select_address 0 (asciiEncode "E\r")).2 = [Effect.busExch (adr_frame 0)] :=
  ⟨by decide, by decide⟩

/-- Settle delay on acknowledgement: an address-select exchange the
device acknowledges with OK is followed by the 0.1 second sleep before
the call returns, and a rejected exchange raises with no pause. -/
theorem select_address_delay_on_ack (address : Int) (resp : Bytes) :
    (resp = OKframe →
      (select_address address resp).2 =
        [Effect.busExch (adr_frame address), Effect.sleepSec (1 / 10)] ∧
      tracePauses (select_address address resp).2 = [1 / 10]) ∧
    (resp ≠ OKframe → tracePauses (select_address address resp).2 = []) := by
  constructor
  · intro h
    unfold select_address set_decode
    rw [if_pos h]
    exact ⟨rfl, rfl⟩
  · intro h
    unfold select_address set_decode
    rw [if_neg h]
    rfl

/-- Witness: an acknowledged ADR exchange at address 7 sleeps a tenth
of a second after the exchange; a rejected one pauses not at all. -/
theorem select_address_delay_on_ack_witness :
    (select_address 7 OKframe).2 =
      [Effect.busExch (adr_frame 7), Effect.sleepSec (1 / 10)] ∧
    tracePauses (select_address 7 (asciiEncode "E\r")).2 = [] :=
  ⟨((select_address_delay_on_ack 7 OKframe).1 rfl).1,
   (select_address_delay_on_ack 7 (asciiEncode "E\r")).2 (by decide)⟩

/-- Address range, counterexample: select_address transmits the ADR
frame for address 31 as given — a frame carrying an address outside 0
to 30 is sent to the device, with no validation anywhere. -/
theorem select_address_sends_out_of_range :
    Effect.busExch (adr_frame 31) ∈ (select_address 31 OKframe).2 ∧
    adr_frame 31 = asciiEncode "ADR 31\r" ∧
    ¬((31 : Int) ≤ 30) :=
  ⟨by decide, by decide, by decide⟩

/-- Address forwarding: every select_address call transmits the ADR
frame carrying the caller's address argument rendered verbatim, with
no range check. -/
theorem select_address_forwards_address_verbatim (address : Int) (resp : Bytes) :
    Effect.busExch (adr_frame address) ∈ (select_address address resp).2 ∧
    adr_frame address = asciiEncode ("ADR " ++ toString address ++ "\r") := by
  constructor
  · unfold select_address
    cases set_decode resp with
    | ok b => exact List.mem_cons_self _ _
    | error e => exact List.mem_cons_self _ _
  · have e : pyUpper "ADR" ++ (" " ++ toString address) ++ "\r" =
        "ADR " ++ toString address ++ "\r" := by
      have h1 : pyUpper "ADR" = "ADR" := by decide
      have h2 : ("ADR" : String) ++ " " = "ADR " := by decide
      rw [h1, ← String.append_assoc "ADR" " " (toString address), h2]
    show asciiEncode (pyUpper "ADR" ++ (" " ++ toString address) ++ "\r") =
      asciiEncode ("ADR " ++ toString address ++ "\r")
    rw [e]

/-- Extra status fields are ignored: when the cleaned status text
splits on commas into more than six fields and the first six convert,
get_power_status succeeds with the record built from the first six
fields alone — no exact-count check ever inspects the extras. -/
theorem status_decode_ignores_extra_fields
    (raw : Bytes) (s : String) (c0 c1 c2 c3 c4 c5 : List Char)
    (rest : List (List Char)) (q0 q1 q2 q3 : ℚ) (z4 z5 : Int)
    (hdec : asciiDecode raw = .ok s)
    (hsplit : splitComma (stripStatus s).data = c0 :: c1 :: c2 :: c3 :: c4 :: c5 :: rest)
    (hextra : rest ≠ [])
    (h0 : pyFloatChars c0 = some q0) (h1 : pyFloatChars c1 = some q1)
    (h2 : pyFloatChars c2 = some q2) (h3 : pyFloatChars c3 = some q3)
    (h4 : pyHexChars c4 = some z4) (h5 : pyHexChars c5 = some z5) :
    get_power_status_decode raw = .ok ⟨q0, q1, q2, q3, z4, z5⟩ := by
  unfold get_power_status_decode
  rw [hdec]
  simp only [bind, Except.bind, hsplit, liftE, h0, h1, h2, h3, h4, h5, List.get?]
  rfl

unseal Rat.add Rat.mul Rat.inv in
/-- Witness: a seven-field status line decodes to the record of its
first six fields, ignoring the seventh. -/
theorem status_decode_ignores_extra_fields_witness :
    get_power_status_decode (asciiEncode "1,2,3,4,5,6,7\r") =
      .ok ⟨1, 2, 3, 4, 5, 6⟩ :=
  status_decode_ignores_extra_fields (asciiEncode "1,2,3,4,5,6,7\r")
    "1,2,3,4,5,6,7\r" "1".data "2".data "3".data "4".data "5".data "6".data
    ["7\r".data] 1 2 3 4 5 6 (by decide) (by decide) (by decide)
    (by decide) (by decide) (by decide) (by decide) (by decide) (by decide)
